import Mathlib

/-!
Shallow embedding of the extraction and loading pipeline in
`src/page_reader.py` of the employee_tracker repository, together with
theorems settling the specification claims about it.

Conventions of the embedding:
* a spreadsheet page is a list of rows of cells (`Page`); `cellAt` is
  `page.iloc[r].iloc[c]`, with positions that fall outside the grid reading
  as a null cell (the claims under study never exercise out-of-range
  positions);
* a cell is null (`Cell.blank`, pandas NaN), a string, or a number
  (rationals stand for the numeric cell values);
* Python string operations are modelled character-exactly on `String`
  via its character list (`str.strip`, `str.lower`, `str.replace`,
  `str.split`, `in`, `str.index`, slicing);
* a Python `dict` is an association list updated by `dictInsert`
  (assignment to an existing key overwrites in place, a new key is
  appended, exactly as insertion order is kept by `dict`);
* a function that can raise an uncaught Python exception returns an
  `Option`, with `none` standing for the exception.
-/

set_option linter.unusedVariables false

/-- A cell of a spreadsheet page: null (pandas NaN), text, or a number. -/
inductive Cell where
  | blank
  | str (s : String)
  | num (q : ℚ)
deriving DecidableEq

/-- A page is a list of rows of cells. -/
abbrev Page := List (List Cell)

/-- `page.iloc[r].iloc[c]`; out-of-range positions read as null. -/
def cellAt (page : Page) (r c : Nat) : Cell :=
  (page.getD r []).getD c Cell.blank

/-- Python `str.strip()` on a character list: drop leading and trailing
whitespace. -/
def stripChars (l : List Char) : List Char :=
  ((l.dropWhile Char.isWhitespace).reverse.dropWhile Char.isWhitespace).reverse

/-- Python `s.strip()`. -/
def pyStrip (s : String) : String := ⟨stripChars s.toList⟩

/-- Python `s.lower()`. -/
def pyLower (s : String) : String := ⟨s.toList.map Char.toLower⟩

/-- Python `s.replace(" ", "_")` (the only replace the source performs:
a single-character pattern, so a character map). -/
def pyReplaceSpace (s : String) : String :=
  ⟨s.toList.map (fun c => if c = ' ' then '_' else c)⟩

/-- `pat` matches at the head of `s`. -/
def leadMatch : List Char → List Char → Bool
  | [], _ => true
  | _ :: _, [] => false
  | p :: ps, c :: cs => p = c && leadMatch ps cs

/-- Python substring containment `pat in s`, on character lists. -/
def hasSub (s pat : List Char) : Bool :=
  leadMatch pat s ||
    match s with
    | [] => false
    | _ :: rest => hasSub rest pat

/-- Python `pat in s` on strings. -/
def strHas (s pat : String) : Bool := hasSub s.toList pat.toList

/-- Python `s.index(c)`: character position of the first occurrence,
`none` when the character is absent (where `str.index` raises ValueError). -/
def charIdx (s : String) (c : Char) : Option Nat :=
  s.toList.findIdx? (fun a => a = c)

/-- Python slice `s[a:]`. -/
def sliceFrom (s : String) (a : Nat) : String := ⟨s.toList.drop a⟩

/-- Python slice `s[a:b]` (with the usual clamping at the end of the
string). -/
def sliceBetween (s : String) (a b : Nat) : String :=
  ⟨(s.toList.drop a).take (b - a)⟩

/-- Python `s.split(',')` on a character list. -/
def splitComma : List Char → List (List Char)
  | [] => [[]]
  | c :: rest =>
    match splitComma rest with
    | [] => [[]]
    | g :: gs => if c = ',' then [] :: g :: gs else (c :: g) :: gs

/-- Python `last, first = s.split(',')`: succeeds exactly when the split
has two parts (one comma), otherwise the unpacking raises ValueError. -/
def splitTwo (s : String) : Option (String × String) :=
  match splitComma s.toList with
  | [a, b] => some (⟨a⟩, ⟨b⟩)
  | _ => none

/-- Python `d[k] = v` on an insertion-ordered dict: an existing key keeps
its position and gets the new value, a new key is appended. -/
def dictInsert {α : Type} (m : List (String × α)) (k : String) (v : α) :
    List (String × α) :=
  if m.any (fun p => p.1 = k) then
    m.map (fun p => if p.1 = k then (k, v) else p)
  else m ++ [(k, v)]

/-- Controlled vocabulary of `get_columns` (employee-roster pages):
known raw header → canonical column name. -/
def employeeVocab : List (String × String) :=
  [("Target", "target_pct"), ("Actual", "actual_pct"), ("Direct", "direct"),
   ("Trgt\nHrs", "target_hrs"), ("Indirect", "indirect"), ("Hol", "holiday"),
   ("PPL", "paid_personal_leave"), ("Admin", "admin"), ("Mktg", "marketing"),
   ("BD", "business_development"), ("Prop", "proposal"),
   ("TD", "tech_development"), ("UPL/PTL", "upl_ptl"), ("Hours", "hours"),
   ("Stand", "standard")]

/-- Controlled vocabulary of `get_firm_columns` (firm summary pages). -/
def firmVocab : List (String × String) :=
  [("Target\n%", "target_pct"), ("Actual\n%", "actual_pct"),
   ("Direct", "direct"), ("Target", "target_hrs"), ("Indirect", "indirect"),
   ("Hol", "holiday"), ("PPL", "paid_personal_leave"), ("Admin", "admin"),
   ("Mktg", "marketing"), ("BD", "business_development"), ("Prop", "proposal"),
   ("TD", "tech_development"), ("UPL/PTL", "upl_ptl"), ("Total", "total"),
   ("Std", "standard")]

/-- The slug fallback of the column resolvers:
`val.strip().lower().replace(" ", "_")`. -/
def slugify (s : String) : String := pyReplaceSpace (pyLower (pyStrip s))

/-- `mapping.get(val, val.strip().lower().replace(" ", "_"))` for a string
header value. -/
def canonName (vocab : List (String × String)) (s : String) : String :=
  (vocab.lookup s).getD (slugify s)

/-- The header loop shared by `get_columns` and `get_firm_columns`.
A non-null cell that is not a string reaches the slug fallback's
`val.strip()` unguarded and raises AttributeError (`none`); such a value
can never be a key of the vocabulary, whose keys are strings. -/
def resolveColumnsAux (vocab : List (String × String)) :
    List Cell → Nat → List (String × Nat) → Option (List (String × Nat))
  | [], _, acc => some acc
  | Cell.blank :: rest, i, acc => resolveColumnsAux vocab rest (i + 1) acc
  | Cell.str s :: rest, i, acc =>
      resolveColumnsAux vocab rest (i + 1) (dictInsert acc (canonName vocab s) i)
  | Cell.num _ :: rest, i, acc => none

/-- `get_columns`: resolves the header row `page.iloc[0]` against the
employee vocabulary. -/
def get_columns (page : Page) : Option (List (String × Nat)) :=
  resolveColumnsAux employeeVocab (page.getD 0 []) 0 []

/-- `get_firm_columns`: resolves the header row `page.iloc[7]` against the
firm vocabulary. -/
def get_firm_columns (page : Page) : Option (List (String × Nat)) :=
  resolveColumnsAux firmVocab (page.getD 7 []) 0 []

/-- The period text computed for a marker cell or header:
`i[i.index('-') + 2:]`; `none` when the text has no hyphen (ValueError). -/
def periodFromText (s : String) : Option String :=
  match charIdx s '-' with
  | none => none
  | some k => some (sliceFrom s (k + 2))

/-- The inner loop of `get_firm_pay_period` over one row: the first string
cell containing the marker has its period text computed, then `break`.
`none` = ValueError escaped; `some r` = the row was scanned through, with
`r` the period text if this row's marker cell produced one. -/
def firmPeriodRowScan : List Cell → Option (Option String)
  | [] => some none
  | Cell.str s :: rest =>
      if strHas s "For the period" then
        match periodFromText s with
        | none => none
        | some p => some (some p)
      else firmPeriodRowScan rest
  | _ :: rest => firmPeriodRowScan rest

/-- `get_firm_pay_period`: scans every row; the period text computed by the
inner loop is bound to a local and dropped (the `break` leaves only the
inner loop and the function body has no return statement), so normal
completion always returns Python's implicit None.
Outer `none` = uncaught ValueError; `some r` = returned value `r`. -/
def get_firm_pay_period : Page → Option (Option String)
  | [] => some none
  | row :: rest =>
      match firmPeriodRowScan row with
      | none => none
      | some _ => get_firm_pay_period rest

/-- `get_pay_period`: scans the page's column header strings and returns
the period text of the first header containing the marker; returns None
(`some none`) when no header matches; `none` = ValueError when the
matching header has no hyphen. -/
def get_pay_period : List String → Option (Option String)
  | [] => some none
  | col :: rest =>
      if strHas col "For the period" then
        match periodFromText col with
        | none => none
        | some p => some (some p)
      else get_pay_period rest

/-- The employee metadata row built by `get_employees`:
`[employee_name.strip(), last.strip(), first.strip(), number]`. -/
structure EmpMeta where
  name : String
  last : String
  first : String
  number : String
deriving DecidableEq

/-- Outcome of one row of a label-locator loop: no marker, an uncaught
exception, or a parsed (key, value) pair. -/
inductive RowParse (κ : Type) where
  | skip
  | bad
  | found (key : String) (val : κ)

/-- One iteration of the `get_employees` loop. The containment test is
`'Employee Number:' in str(row.iloc[0])`; `str()` of a null or numeric
cell can never contain the marker, so only string cells can match.
On a match: `colon = cell.index(':')` (the marker guarantees a colon; a
missing one would raise), `employee_name = cell[colon + 7:]`,
`number = cell[colon + 2 : colon + 6]`,
`last, first = employee_name.split(',')` (raising unless exactly one
comma occurs). -/
def parseEmployeeRow (row : List Cell) : RowParse EmpMeta :=
  match row.getD 0 Cell.blank with
  | Cell.str s =>
      if strHas s "Employee Number:" then
        match charIdx s ':' with
        | none => RowParse.bad
        | some colon =>
            let employeeName := sliceFrom s (colon + 7)
            let number := sliceBetween s (colon + 2) (colon + 6)
            match splitTwo employeeName with
            | none => RowParse.bad
            | some lf =>
                RowParse.found number
                  ⟨pyStrip employeeName, pyStrip lf.1, pyStrip lf.2, number⟩
      else RowParse.skip
  | _ => RowParse.skip

/-- The row loop of `get_employees`, carrying the two dicts. -/
def get_employees_aux :
    Page → Nat → List (String × Nat) → List (String × EmpMeta) →
    Option (List (String × Nat) × List (String × EmpMeta))
  | [], _, rows, data => some (rows, data)
  | row :: rest, idx, rows, data =>
      match parseEmployeeRow row with
      | RowParse.skip => get_employees_aux rest (idx + 1) rows data
      | RowParse.bad => none
      | RowParse.found number meta =>
          get_employees_aux rest (idx + 1)
            (dictInsert rows number idx) (dictInsert data number meta)

/-- `get_employees`: employee label index (number → row index) and
employee metadata, both keyed by the parsed employee number. -/
def get_employees (page : Page) :
    Option (List (String × Nat) × List (String × EmpMeta)) :=
  get_employees_aux page 0 [] []

/-- One iteration of the `get_sections` loop: on a match,
`section_name = cell[colon + 2:]` (no strip is applied). -/
def parseSectionRow (row : List Cell) : RowParse String :=
  match row.getD 0 Cell.blank with
  | Cell.str s =>
      if strHas s "Section:" then
        match charIdx s ':' with
        | none => RowParse.bad
        | some colon =>
            RowParse.found (sliceFrom s (colon + 2)) (sliceFrom s (colon + 2))
      else RowParse.skip
  | _ => RowParse.skip

/-- The row loop of `get_sections`. -/
def get_sections_aux :
    Page → Nat → List (String × Nat) → List (String × String) →
    Option (List (String × Nat) × List (String × String))
  | [], _, rows, data => some (rows, data)
  | row :: rest, idx, rows, data =>
      match parseSectionRow row with
      | RowParse.skip => get_sections_aux rest (idx + 1) rows data
      | RowParse.bad => none
      | RowParse.found name val =>
          get_sections_aux rest (idx + 1)
            (dictInsert rows name idx) (dictInsert data name val)

/-- `get_sections`: section label index and section metadata, keyed by the
raw remainder of the label cell after `':'` plus one character. -/
def get_sections (page : Page) :
    Option (List (String × Nat) × List (String × String)) :=
  get_sections_aux page 0 [] []

/-- The row loop of `get_firm_totals`. -/
def get_firm_totals_aux : Page → Nat → Option Nat
  | [], _ => none
  | row :: rest, idx =>
      match row.getD 0 Cell.blank with
      | Cell.str s =>
          if strHas s "Final Totals" then some idx
          else get_firm_totals_aux rest (idx + 1)
      | _ => get_firm_totals_aux rest (idx + 1)

/-- `get_firm_totals`: index of the first row whose first cell's text
contains 'Final Totals'. When no row matches, `return company_row` reads
an unassigned local and raises UnboundLocalError (`none`). -/
def get_firm_totals (page : Page) : Option Nat :=
  get_firm_totals_aux page 0

/-- A flat extracted record: canonical field name → copied cell value. -/
abbrev Record := List (String × Cell)

/-- The copy loop shared by the three data extractors: for each canonical
column of the column map, the cell at that column's resolved index in row
`r` is appended under the canonical name. -/
def extractRecord (page : Page) (r : Nat) (colmap : List (String × Nat)) :
    Record :=
  colmap.map (fun p => (p.1, cellAt page r p.2))

/-- `... / 100.` on one cell. A null stays null (NaN / 100 is NaN). The
source applies this to the numeric `actual_pct` column; pandas would raise
on a string column, a case no theorem below evaluates. -/
def cellDiv100 : Cell → Cell
  | Cell.num q => Cell.num (q / 100)
  | c => c

/-- `week_df.loc[:, 'actual_pct'] = week_df['actual_pct'] / 100.` -/
def scaleActualPct (rec : Record) : Record :=
  rec.map (fun f => if f.1 = "actual_pct" then (f.1, cellDiv100 f.2) else f)

/-- `df['period_ending'] = pd.to_datetime(period_end)`: a trailing
period-ending column on every record. -/
def attachPeriod (periodEnd : String) (rec : Record) : Record :=
  rec ++ [("period_ending", Cell.str periodEnd)]

/-- `get_employee_data`: for each employee label row at index `idx`, the
rows `idx + 1`, `idx + 2`, `idx + 3` become the week, month-to-date and
year-to-date records; the week table then has `actual_pct` divided by 100
and all three get the period-ending column. -/
def get_employee_data (page : Page) (periodEnd : String)
    (employeeRows : List (String × Nat)) (colmap : List (String × Nat)) :
    List (String × Record) × List (String × Record) × List (String × Record) :=
  (employeeRows.map (fun er =>
      (er.1, attachPeriod periodEnd (scaleActualPct (extractRecord page (er.2 + 1) colmap)))),
   employeeRows.map (fun er =>
      (er.1, attachPeriod periodEnd (extractRecord page (er.2 + 2) colmap))),
   employeeRows.map (fun er =>
      (er.1, attachPeriod periodEnd (extractRecord page (er.2 + 3) colmap))))

/-- `get_section_data`: the same fixed-offset extraction per section label
row, with no percentage scaling. -/
def get_section_data (page : Page) (periodEnd : String)
    (sectionRows : List (String × Nat)) (colmap : List (String × Nat)) :
    List (String × Record) × List (String × Record) × List (String × Record) :=
  (sectionRows.map (fun sr =>
      (sr.1, attachPeriod periodEnd (extractRecord page (sr.2 + 1) colmap))),
   sectionRows.map (fun sr =>
      (sr.1, attachPeriod periodEnd (extractRecord page (sr.2 + 2) colmap))),
   sectionRows.map (fun sr =>
      (sr.1, attachPeriod periodEnd (extractRecord page (sr.2 + 3) colmap))))

/-- `get_firm_data`: the three rows below the firm-totals row, keyed by the
period end. -/
def get_firm_data (page : Page) (periodEnd : String) (companyRow : Nat)
    (colmap : List (String × Nat)) :
    List (String × Record) × List (String × Record) × List (String × Record) :=
  ([(periodEnd, attachPeriod periodEnd (extractRecord page (companyRow + 1) colmap))],
   [(periodEnd, attachPeriod periodEnd (extractRecord page (companyRow + 2) colmap))],
   [(periodEnd, attachPeriod periodEnd (extractRecord page (companyRow + 3) colmap))])

/-- A persisted fact row: the table index value (employee id, section name,
or period end for the firm tables), the period-ending key column, and the
remaining metric columns. -/
structure FactRow where
  entity : String
  period_ending : String
  fields : List (String × Cell)
deriving DecidableEq

/-- The PATCH rename table applied to the employee fact frames in
`write_data`. -/
def employeeRename : List (String × String) :=
  [("direct\nhours", "direct"), ("indirect\nhours", "indirect"),
   ("hours\nhours", "hours")]

/-- The PATCH rename table applied to the section and firm fact frames in
`write_data`. -/
def sectionRename : List (String × String) :=
  [("direct\namount", "direct"), ("indirect\namount", "indirect"),
   ("total\namount", "total")]

/-- `df.rename(columns=mapping)`: each column label that occurs in the
mapping is replaced; the index and the period-ending column are not
touched. -/
def renameFields (ren : List (String × String)) (row : FactRow) : FactRow :=
  { row with fields := row.fields.map (fun f => ((ren.lookup f.1).getD f.1, f.2)) }

/-- The persisted database state: the employee dimension table and the
nine period fact tables. -/
structure Store where
  employee : List (String × EmpMeta)
  employee_week : List FactRow
  employee_mtd : List FactRow
  employee_ytd : List FactRow
  section_week : List FactRow
  section_mtd : List FactRow
  section_ytd : List FactRow
  firm_week : List FactRow
  firm_mtd : List FactRow
  firm_ytd : List FactRow
deriving DecidableEq

/-- A database with all tables empty (also the state the source's
`except` branch reports when the employee table does not exist yet). -/
def emptyStore : Store := ⟨[], [], [], [], [], [], [], [], [], []⟩

/-- The frames one ingestion run passes to `write_data`. -/
structure Ingest where
  employee_df : List (String × EmpMeta)
  emp_week : List FactRow
  emp_mtd : List FactRow
  emp_ytd : List FactRow
  sec_week : List FactRow
  sec_mtd : List FactRow
  sec_ytd : List FactRow
  firm_week : List FactRow
  firm_mtd : List FactRow
  firm_ytd : List FactRow
deriving DecidableEq

/-- `write_data`: reads the persisted employee ids, appends only the
incoming employee rows whose id is not yet persisted (`~isin`), applies
the two PATCH rename tables, then appends each of the nine fact frames to
its period table unconditionally (`if_exists="append"`). -/
def write_data (st : Store) (ing : Ingest) : Store :=
  let existing := st.employee.map Prod.fst
  { employee := st.employee ++ ing.employee_df.filter (fun r => ! existing.contains r.1),
    employee_week := st.employee_week ++ ing.emp_week.map (renameFields employeeRename),
    employee_mtd := st.employee_mtd ++ ing.emp_mtd.map (renameFields employeeRename),
    employee_ytd := st.employee_ytd ++ ing.emp_ytd.map (renameFields employeeRename),
    section_week := st.section_week ++ ing.sec_week.map (renameFields sectionRename),
    section_mtd := st.section_mtd ++ ing.sec_mtd.map (renameFields sectionRename),
    section_ytd := st.section_ytd ++ ing.sec_ytd.map (renameFields sectionRename),
    firm_week := st.firm_week ++ ing.firm_week.map (renameFields sectionRename),
    firm_mtd := st.firm_mtd ++ ing.firm_mtd.map (renameFields sectionRename),
    firm_ytd := st.firm_ytd ++ ing.firm_ytd.map (renameFields sectionRename) }

/-- Modelled from the spec: the duplicate-detection hardening of §7
(DuplicatePeriodIngestion) is absent from the source; per the spec a row
whose (entity, period_ending) combination is already persisted in the
target table is reported as a recoverable skip instead of being appended. -/
def appendGuarded (table rows : List FactRow) : List FactRow :=
  table ++ rows.filter (fun r =>
    ! table.any (fun t => t.entity == r.entity && t.period_ending == r.period_ending))

/-- Modelled from the spec: `write_data` with the duplicate-detection
hardening enabled on each of the nine fact appends; the entity upsert and
the renames are those of the source. -/
def write_data_guarded (st : Store) (ing : Ingest) : Store :=
  let existing := st.employee.map Prod.fst
  { employee := st.employee ++ ing.employee_df.filter (fun r => ! existing.contains r.1),
    employee_week := appendGuarded st.employee_week (ing.emp_week.map (renameFields employeeRename)),
    employee_mtd := appendGuarded st.employee_mtd (ing.emp_mtd.map (renameFields employeeRename)),
    employee_ytd := appendGuarded st.employee_ytd (ing.emp_ytd.map (renameFields employeeRename)),
    section_week := appendGuarded st.section_week (ing.sec_week.map (renameFields sectionRename)),
    section_mtd := appendGuarded st.section_mtd (ing.sec_mtd.map (renameFields sectionRename)),
    section_ytd := appendGuarded st.section_ytd (ing.sec_ytd.map (renameFields sectionRename)),
    firm_week := appendGuarded st.firm_week (ing.firm_week.map (renameFields sectionRename)),
    firm_mtd := appendGuarded st.firm_mtd (ing.firm_mtd.map (renameFields sectionRename)),
    firm_ytd := appendGuarded st.firm_ytd (ing.firm_ytd.map (renameFields sectionRename)) }

/-- Number of fact rows of a table carrying a given
(entity, period_ending) key. -/
def countKey (table : List FactRow) (e p : String) : Nat :=
  table.countP (fun r => r.entity == e && r.period_ending == p)

/-- Index of the last non-null header cell (counting from offset `i`)
whose canonical name is `key`: the characterization the corrected claim C8
asserts of the resolved column map. -/
def lastCanonIdx (vocab : List (String × String)) :
    List Cell → Nat → String → Option Nat
  | [], _, _ => none
  | c :: rest, i, key =>
      match lastCanonIdx vocab rest (i + 1) key with
      | some j => some j
      | none =>
          match c with
          | Cell.str s => if canonName vocab s = key then some i else none
          | _ => none

/-- The last row (counting from `idx`) whose first cell parses as an
employee label with the given employee number, together with the metadata
parsed there: the characterization claim C9 asserts of `get_employees`. -/
def lastEmployeeOcc : Page → Nat → String → Option (Nat × EmpMeta)
  | [], _, _ => none
  | row :: rest, idx, key =>
      match lastEmployeeOcc rest (idx + 1) key with
      | some v => some v
      | none =>
          match parseEmployeeRow row with
          | RowParse.found number meta =>
              if number = key then some (idx, meta) else none
          | _ => none

/-- Claim C4's words for the employee key: the 4 characters immediately
following the colon. -/
def claimEmployeeKey (s : String) : Option String :=
  match charIdx s ':' with
  | none => none
  | some colon => some (sliceBetween s (colon + 1) (colon + 5))

/-- Claim C4's words for the section key: the full remainder of the cell
text after the colon, trimmed. -/
def claimSectionKey (s : String) : Option String :=
  match charIdx s ':' with
  | none => none
  | some colon => some (pyStrip (sliceFrom s (colon + 1)))

/-- First-match lookup in an association list: the read operation on the
Python dicts built by `dictInsert`. -/
def alookup {α : Type} : List (String × α) → String → Option α
  | [], _ => none
  | p :: rest, k => if p.1 = k then some p.2 else alookup rest k

/-- A concrete fact row used to exercise the loader claims. -/
def c6row : FactRow := ⟨"1001", "3/2/2025", [("direct", Cell.num 32)]⟩

/-- A concrete one-row-per-table ingestion run. -/
def c6ing : Ingest :=
  ⟨[], [c6row], [c6row], [c6row], [c6row], [c6row], [c6row], [c6row], [c6row], [c6row]⟩

/-- Employee metadata rows used to exercise the upsert claim. -/
def c7metaA : EmpMeta := ⟨"Doe, Jane", "Doe", "Jane", "1001"⟩

/-- The same employee as `c7metaA` under a changed display name. -/
def c7metaA2 : EmpMeta := ⟨"Doe-Smith, Jane", "Doe-Smith", "Jane", "1001"⟩

/-- A second, new employee. -/
def c7metaB : EmpMeta := ⟨"Roe, Richard", "Roe", "Richard", "1002"⟩

/-- A store that already holds employee 1001. -/
def c7st : Store := ⟨[("1001", c7metaA)], [], [], [], [], [], [], [], [], []⟩

/-- A second ingestion run carrying employee 1001 again (renamed) and the
new employee 1002. -/
def c7ing : Ingest :=
  ⟨[("1001", c7metaA2), ("1002", c7metaB)], [], [], [], [], [], [], [], [], []⟩

lemma alookup_map_ne {α : Type} (k k' : String) (v : α) (h : k' ≠ k)
    (m : List (String × α)) :
    alookup (m.map (fun p => if p.1 = k then (k, v) else p)) k' = alookup m k' := by
  induction m with
  | nil => rfl
  | cons p rest ih =>
      by_cases hp : p.1 = k
      · simp [alookup, hp, Ne.symm h, ih]
      · by_cases hp' : p.1 = k'
        · simp [alookup, hp, hp', h]
        · simp [alookup, hp, hp', ih]

lemma alookup_map_self {α : Type} (k : String) (v : α) (m : List (String × α))
    (h : m.any (fun p => p.1 = k) = true) :
    alookup (m.map (fun p => if p.1 = k then (k, v) else p)) k = some v := by
  induction m with
  | nil => simp at h
  | cons p rest ih =>
      by_cases hp : p.1 = k
      · simp [alookup, hp]
      · simp only [List.any_cons, Bool.or_eq_true, decide_eq_true_eq] at h
        rcases h with h | h
        · exact absurd h hp
        · simp only [List.map_cons, if_neg hp, alookup, hp, if_false]
          exact ih h

lemma alookup_append_single {α : Type} (k k' : String) (v : α) (m : List (String × α))
    (h : m.any (fun p => p.1 = k) = false) :
    alookup (m ++ [(k, v)]) k' = if k' = k then some v else alookup m k' := by
  induction m with
  | nil =>
      by_cases hk : k' = k
      · subst hk; simp [alookup]
      · simp [alookup, Ne.symm hk, hk]
  | cons p rest ih =>
      simp only [List.any_cons, Bool.or_eq_false_iff, decide_eq_false_iff_not] at h
      by_cases hp : p.1 = k'
      · have hk : ¬ k' = k := fun hh => h.1 (hp.trans hh)
        simp [alookup, hp, hk]
      · simp only [List.cons_append, alookup, hp, if_false, List.append_eq]
        rw [ih (by simpa using h.2)]

lemma dictInsert_alookup {α : Type} (m : List (String × α)) (k k' : String) (v : α) :
    alookup (dictInsert m k v) k' = if k' = k then some v else alookup m k' := by
  unfold dictInsert
  by_cases hany : (m.any (fun p => p.1 = k)) = true
  · simp only [hany, if_true]
    by_cases hk : k' = k
    · subst hk
      simp only [if_pos rfl]
      exact alookup_map_self _ v m hany
    · simp only [if_neg hk]
      exact alookup_map_ne k k' v hk m
  · have hf : (m.any (fun p => p.1 = k)) = false := by
      cases hx : (m.any (fun p => p.1 = k)) with
      | false => rfl
      | true => exact absurd hx hany
    simp only [hf, Bool.false_eq_true, if_false]
    exact alookup_append_single k k' v m hf

lemma dictInsert_keys_nodup {α : Type} (m : List (String × α)) (k : String) (v : α)
    (h : (m.map Prod.fst).Nodup) : ((dictInsert m k v).map Prod.fst).Nodup := by
  unfold dictInsert
  by_cases hany : (m.any (fun p => p.1 = k)) = true
  · simp only [hany, if_true]
    have heq : (m.map (fun p => if p.1 = k then (k, v) else p)).map Prod.fst
        = m.map Prod.fst := by
      rw [List.map_map]
      apply List.map_congr_left
      intro p hp
      by_cases hpk : p.1 = k
      · simp [hpk]
      · simp [hpk]
    rw [heq]; exact h
  · have hf : (m.any (fun p => p.1 = k)) = false := by
      cases hx : (m.any (fun p => p.1 = k)) with
      | false => rfl
      | true => exact absurd hx hany
    simp only [hf, Bool.false_eq_true, if_false, List.map_append, List.map_cons,
      List.map_nil]
    rw [List.nodup_append]
    refine ⟨h, List.nodup_singleton k, ?_⟩
    intro a ha hb
    simp only [List.mem_singleton] at hb
    rcases List.mem_map.mp ha with ⟨p, hp, hpa⟩
    have htrue : (m.any (fun p => p.1 = k)) = true :=
      List.any_eq_true.mpr ⟨p, hp, by simp [hpa, hb]⟩
    rw [htrue] at hf
    cases hf

lemma getD_map_of_lt {α β : Type} (f : α → β) (l : List α) (j : Nat) (d : β) (d0 : α)
    (hj : j < l.length) : (l.map f).getD j d = f (l.getD j d0) := by
  induction l generalizing j with
  | nil => simp at hj
  | cons a rest ih =>
      cases j with
      | zero => rfl
      | succ n =>
          simp only [List.map_cons, List.getD_cons_succ]
          exact ih n (Nat.lt_of_succ_lt_succ hj)

lemma getD_append_of_lt {α : Type} (l l' : List α) (j : Nat) (d : α)
    (hj : j < l.length) : (l ++ l').getD j d = l.getD j d := by
  induction l generalizing j with
  | nil => simp at hj
  | cons a rest ih =>
      cases j with
      | zero => rfl
      | succ n =>
          simp only [List.cons_append, List.getD_cons_succ]
          exact ih n (Nat.lt_of_succ_lt_succ hj)

lemma resolveColumnsAux_alookup (vocab : List (String × String)) (cells : List Cell)
    (i : Nat) (acc m : List (String × Nat))
    (h : resolveColumnsAux vocab cells i acc = some m) (key : String) :
    alookup m key =
      (lastCanonIdx vocab cells i key).elim (alookup acc key) some := by
  induction cells generalizing i acc with
  | nil =>
      simp only [resolveColumnsAux, Option.some_inj] at h
      subst h
      rfl
  | cons c rest ih =>
      cases c with
      | blank =>
          simp only [resolveColumnsAux] at h
          rw [ih (i + 1) acc h]
          simp only [lastCanonIdx]
          cases lastCanonIdx vocab rest (i + 1) key <;> rfl
      | str s =>
          simp only [resolveColumnsAux] at h
          have hres := ih (i + 1) (dictInsert acc (canonName vocab s) i) h
          rw [hres, dictInsert_alookup]
          simp only [lastCanonIdx]
          cases hrest : lastCanonIdx vocab rest (i + 1) key with
          | some j => rfl
          | none =>
              by_cases hc : canonName vocab s = key
              · simp [hc]
              · have hc' : ¬ key = canonName vocab s := fun hh => hc hh.symm
                simp [hc, hc']
      | num q =>
          simp only [resolveColumnsAux] at h
          exact Option.noConfusion h

lemma resolveColumnsAux_keys_nodup (vocab : List (String × String)) (cells : List Cell)
    (i : Nat) (acc m : List (String × Nat))
    (h : resolveColumnsAux vocab cells i acc = some m)
    (hacc : (acc.map Prod.fst).Nodup) : (m.map Prod.fst).Nodup := by
  induction cells generalizing i acc with
  | nil =>
      simp only [resolveColumnsAux, Option.some_inj] at h
      subst h
      exact hacc
  | cons c rest ih =>
      cases c with
      | blank =>
          simp only [resolveColumnsAux] at h
          exact ih (i + 1) acc h hacc
      | str s =>
          simp only [resolveColumnsAux] at h
          exact ih (i + 1) (dictInsert acc (canonName vocab s) i) h
            (dictInsert_keys_nodup acc (canonName vocab s) i hacc)
      | num q =>
          simp only [resolveColumnsAux] at h
          exact Option.noConfusion h

lemma resolveColumnsAux_isSome (vocab : List (String × String)) (cells : List Cell)
    (i : Nat) (acc : List (String × Nat)) :
    (resolveColumnsAux vocab cells i acc).isSome = true ↔
      ∀ c ∈ cells, ∀ q : ℚ, c ≠ Cell.num q := by
  induction cells generalizing i acc with
  | nil => simp [resolveColumnsAux]
  | cons c rest ih =>
      cases c with
      | blank =>
          simp only [resolveColumnsAux, List.mem_cons]
          rw [ih (i + 1) acc]
          constructor
          · intro hall c' hc' q
            rcases hc' with hc' | hc'
            · subst hc'; exact fun hh => Cell.noConfusion hh
            · exact hall c' hc' q
          · intro hall c' hc' q
            exact hall c' (Or.inr hc') q
      | str s =>
          simp only [resolveColumnsAux, List.mem_cons]
          rw [ih (i + 1) (dictInsert acc (canonName vocab s) i)]
          constructor
          · intro hall c' hc' q
            rcases hc' with hc' | hc'
            · subst hc'; exact fun hh => Cell.noConfusion hh
            · exact hall c' hc' q
          · intro hall c' hc' q
            exact hall c' (Or.inr hc') q
      | num q =>
          simp only [resolveColumnsAux, List.mem_cons]
          constructor
          · intro hh
            simp at hh
          · intro hall
            exact absurd rfl (hall (Cell.num q) (Or.inl rfl) q)

lemma get_employees_aux_alookup (page : Page) (idx : Nat)
    (rs : List (String × Nat)) (ds : List (String × EmpMeta))
    (rows : List (String × Nat)) (data : List (String × EmpMeta))
    (h : get_employees_aux page idx rs ds = some (rows, data)) (key : String) :
    alookup rows key =
      (lastEmployeeOcc page idx key).elim (alookup rs key) (fun v => some v.1) ∧
    alookup data key =
      (lastEmployeeOcc page idx key).elim (alookup ds key) (fun v => some v.2) := by
  induction page generalizing idx rs ds with
  | nil =>
      simp only [get_employees_aux, Option.some_inj] at h
      cases h
      exact ⟨rfl, rfl⟩
  | cons row rest ih =>
      simp only [get_employees_aux] at h
      cases hp : parseEmployeeRow row with
      | skip =>
          rw [hp] at h
          have hres := ih (idx + 1) rs ds h
          simp only [lastEmployeeOcc, hp]
          cases hrest : lastEmployeeOcc rest (idx + 1) key with
          | some v =>
              rw [hrest] at hres
              exact hres
          | none =>
              rw [hrest] at hres
              exact hres
      | bad => rw [hp] at h; cases h
      | found number meta =>
          rw [hp] at h
          have := ih (idx + 1) (dictInsert rs number idx) (dictInsert ds number meta) h
          rcases this with ⟨h1, h2⟩
          rw [h1, h2]
          simp only [lastEmployeeOcc, hp]
          cases hrest : lastEmployeeOcc rest (idx + 1) key with
          | some v => exact ⟨rfl, rfl⟩
          | none =>
              simp only [Option.elim]
              rw [dictInsert_alookup, dictInsert_alookup]
              by_cases hk : number = key
              · subst hk
                simp
              · have hk' : ¬ key = number := fun hh => hk hh.symm
                simp [hk, hk']

lemma get_employees_aux_keys_nodup (page : Page) (idx : Nat)
    (rs : List (String × Nat)) (ds : List (String × EmpMeta))
    (rows : List (String × Nat)) (data : List (String × EmpMeta))
    (h : get_employees_aux page idx rs ds = some (rows, data))
    (hrs : (rs.map Prod.fst).Nodup) : (rows.map Prod.fst).Nodup := by
  induction page generalizing idx rs ds with
  | nil =>
      simp only [get_employees_aux, Option.some_inj] at h
      cases h
      exact hrs
  | cons row rest ih =>
      simp only [get_employees_aux] at h
      cases hp : parseEmployeeRow row with
      | skip => rw [hp] at h; exact ih (idx + 1) rs ds h hrs
      | bad => rw [hp] at h; cases h
      | found number meta =>
          rw [hp] at h
          exact ih (idx + 1) (dictInsert rs number idx) (dictInsert ds number meta) h
            (dictInsert_keys_nodup rs number idx hrs)

lemma countKey_append (a b : List FactRow) (e p : String) :
    countKey (a ++ b) e p = countKey a e p + countKey b e p := by
  simp [countKey, List.countP_append]

lemma countKey_rename (ren : List (String × String)) (l : List FactRow) (e p : String) :
    countKey (l.map (renameFields ren)) e p = countKey l e p := by
  simp only [countKey, List.countP_map]
  apply List.countP_congr
  intro r hr
  rfl

lemma appendGuarded_nil (l : List FactRow) : appendGuarded [] l = l := by
  simp [appendGuarded]

lemma appendGuarded_self (l : List FactRow) : appendGuarded l l = l := by
  unfold appendGuarded
  have hnil : l.filter (fun r =>
      ! l.any (fun t => t.entity == r.entity && t.period_ending == r.period_ending)) = [] := by
    rw [List.filter_eq_nil_iff]
    intro r hr
    have : l.any (fun t => t.entity == r.entity && t.period_ending == r.period_ending) = true :=
      List.any_eq_true.mpr ⟨r, hr, by simp⟩
    simp [this]
  rw [hnil, List.append_nil]

lemma map_fst_filter_key {α : Type} (q : String → Bool) (l : List (String × α)) :
    (l.filter (fun r => q r.1)).map Prod.fst = (l.map Prod.fst).filter q := by
  induction l with
  | nil => rfl
  | cons p rest ih =>
      by_cases hq : q p.1 = true
      · simp [List.filter_cons, hq, ih]
      · simp [List.filter_cons, hq, ih]

/-- C1: for every entity whose label row is at index R in the label index,
the block extractor reads rows R+1, R+2, R+3 as the week, month-to-date
and year-to-date records, and for every canonical column of the column map
it copies the cell at that column's resolved index into each of the three
records unchanged (no coercion in the copy loop); the section extractor's
three output tables consist exactly of these verbatim records (plus the
trailing period-ending column attached afterwards). -/
theorem entity_block_fixed_offsets (page : Page) (periodEnd : String)
    (sectionRows colmap : List (String × Nat)) (r i j : Nat)
    (hi : i < sectionRows.length) (hj : j < colmap.length) :
    ((extractRecord page (r + 1) colmap).getD j ("", Cell.blank) =
        ((colmap.getD j ("", 0)).1, cellAt page (r + 1) (colmap.getD j ("", 0)).2) ∧
      (extractRecord page (r + 2) colmap).getD j ("", Cell.blank) =
        ((colmap.getD j ("", 0)).1, cellAt page (r + 2) (colmap.getD j ("", 0)).2) ∧
      (extractRecord page (r + 3) colmap).getD j ("", Cell.blank) =
        ((colmap.getD j ("", 0)).1, cellAt page (r + 3) (colmap.getD j ("", 0)).2)) ∧
    ((get_section_data page periodEnd sectionRows colmap).1.getD i ("", []) =
        ((sectionRows.getD i ("", 0)).1,
          attachPeriod periodEnd
            (extractRecord page ((sectionRows.getD i ("", 0)).2 + 1) colmap)) ∧
      (get_section_data page periodEnd sectionRows colmap).2.1.getD i ("", []) =
        ((sectionRows.getD i ("", 0)).1,
          attachPeriod periodEnd
            (extractRecord page ((sectionRows.getD i ("", 0)).2 + 2) colmap)) ∧
      (get_section_data page periodEnd sectionRows colmap).2.2.getD i ("", []) =
        ((sectionRows.getD i ("", 0)).1,
          attachPeriod periodEnd
            (extractRecord page ((sectionRows.getD i ("", 0)).2 + 3) colmap))) := by
  refine ⟨⟨?_, ?_, ?_⟩, ⟨?_, ?_, ?_⟩⟩
  · exact getD_map_of_lt _ colmap j _ ("", 0) hj
  · exact getD_map_of_lt _ colmap j _ ("", 0) hj
  · exact getD_map_of_lt _ colmap j _ ("", 0) hj
  · exact getD_map_of_lt _ sectionRows i _ ("", 0) hi
  · exact getD_map_of_lt _ sectionRows i _ ("", 0) hi
  · exact getD_map_of_lt _ sectionRows i _ ("", 0) hi

/-- A concrete page for the block-extractor witness: a header row and three
data rows below the (fictitious) label row 0. -/
def c1page : Page :=
  [[Cell.str "hdr"], [Cell.num 1, Cell.num 2], [Cell.num 3, Cell.num 4],
   [Cell.num 5, Cell.num 6]]

/-- Concrete column map for the block-extractor witness. -/
def c1colmap : List (String × Nat) := [("direct", 1)]

/-- Concrete label index for the block-extractor witness. -/
def c1rows : List (String × Nat) := [("SecA", 0)]

/-- Witness for C1 at a concrete page, label index and column map. -/
theorem entity_block_fixed_offsets_witness :
    (0 < c1rows.length ∧ 0 < c1colmap.length) ∧
    ((extractRecord c1page (0 + 1) c1colmap).getD 0 ("", Cell.blank) =
        ((c1colmap.getD 0 ("", 0)).1, cellAt c1page (0 + 1) (c1colmap.getD 0 ("", 0)).2) ∧
      (extractRecord c1page (0 + 2) c1colmap).getD 0 ("", Cell.blank) =
        ((c1colmap.getD 0 ("", 0)).1, cellAt c1page (0 + 2) (c1colmap.getD 0 ("", 0)).2) ∧
      (extractRecord c1page (0 + 3) c1colmap).getD 0 ("", Cell.blank) =
        ((c1colmap.getD 0 ("", 0)).1, cellAt c1page (0 + 3) (c1colmap.getD 0 ("", 0)).2)) ∧
    (get_section_data c1page "3/2/2025" c1rows c1colmap).1.getD 0 ("", []) =
      ((c1rows.getD 0 ("", 0)).1,
        attachPeriod "3/2/2025"
          (extractRecord c1page ((c1rows.getD 0 ("", 0)).2 + 1) c1colmap)) :=
  ⟨⟨by decide, by decide⟩,
   (entity_block_fixed_offsets c1page "3/2/2025" c1rows c1colmap 0 0 0
      (by decide) (by decide)).1,
   ((entity_block_fixed_offsets c1page "3/2/2025" c1rows c1colmap 0 0 0
      (by decide) (by decide)).2).1⟩

/-- C2: in `get_employee_data`, the persisted weekly `actual_pct` equals
the raw extracted cell value divided by 100, while the month-to-date and
year-to-date records keep their raw cell values at that column, and every
other weekly column keeps its raw value. -/
theorem weekly_actual_pct_scaled (page : Page) (periodEnd : String)
    (employeeRows colmap : List (String × Nat)) (i j j2 c c2 : Nat)
    (col2 : String) (q : ℚ)
    (hi : i < employeeRows.length) (hj : j < colmap.length)
    (hcol : colmap.getD j ("", 0) = ("actual_pct", c))
    (hq : cellAt page ((employeeRows.getD i ("", 0)).2 + 1) c = Cell.num q)
    (hj2 : j2 < colmap.length) (hcol2 : colmap.getD j2 ("", 0) = (col2, c2))
    (hne : col2 ≠ "actual_pct") :
    (((get_employee_data page periodEnd employeeRows colmap).1.getD i ("", [])).2).getD
        j ("", Cell.blank) = ("actual_pct", Cell.num (q / 100)) ∧
    (((get_employee_data page periodEnd employeeRows colmap).2.1.getD i ("", [])).2).getD
        j ("", Cell.blank) =
      ("actual_pct", cellAt page ((employeeRows.getD i ("", 0)).2 + 2) c) ∧
    (((get_employee_data page periodEnd employeeRows colmap).2.2.getD i ("", [])).2).getD
        j ("", Cell.blank) =
      ("actual_pct", cellAt page ((employeeRows.getD i ("", 0)).2 + 3) c) ∧
    (((get_employee_data page periodEnd employeeRows colmap).1.getD i ("", [])).2).getD
        j2 ("", Cell.blank) =
      (col2, cellAt page ((employeeRows.getD i ("", 0)).2 + 1) c2) := by
  have hweek : (get_employee_data page periodEnd employeeRows colmap).1.getD i ("", []) =
      ((employeeRows.getD i ("", 0)).1,
        attachPeriod periodEnd
          (scaleActualPct
            (extractRecord page ((employeeRows.getD i ("", 0)).2 + 1) colmap))) :=
    getD_map_of_lt _ employeeRows i _ ("", 0) hi
  have hmtd : (get_employee_data page periodEnd employeeRows colmap).2.1.getD i ("", []) =
      ((employeeRows.getD i ("", 0)).1,
        attachPeriod periodEnd
          (extractRecord page ((employeeRows.getD i ("", 0)).2 + 2) colmap)) :=
    getD_map_of_lt _ employeeRows i _ ("", 0) hi
  have hytd : (get_employee_data page periodEnd employeeRows colmap).2.2.getD i ("", []) =
      ((employeeRows.getD i ("", 0)).1,
        attachPeriod periodEnd
          (extractRecord page ((employeeRows.getD i ("", 0)).2 + 3) colmap)) :=
    getD_map_of_lt _ employeeRows i _ ("", 0) hi
  have hlenScale : (scaleActualPct
      (extractRecord page ((employeeRows.getD i ("", 0)).2 + 1) colmap)).length
      = colmap.length := by
    simp [scaleActualPct, extractRecord]
  have hlen2 : (extractRecord page ((employeeRows.getD i ("", 0)).2 + 2) colmap).length
      = colmap.length := by simp [extractRecord]
  have hlen3 : (extractRecord page ((employeeRows.getD i ("", 0)).2 + 3) colmap).length
      = colmap.length := by simp [extractRecord]
  refine ⟨?_, ?_, ?_, ?_⟩
  · rw [hweek]
    show (attachPeriod periodEnd
        (scaleActualPct
          (extractRecord page ((employeeRows.getD i ("", 0)).2 + 1) colmap))).getD
      j ("", Cell.blank) = _
    unfold attachPeriod
    rw [getD_append_of_lt _ _ j _ (by rw [hlenScale]; exact hj)]
    unfold scaleActualPct
    rw [getD_map_of_lt _ _ j _ ("", Cell.blank) (by simpa [extractRecord] using hj)]
    have hrec : (extractRecord page ((employeeRows.getD i ("", 0)).2 + 1) colmap).getD
        j ("", Cell.blank)
        = ("actual_pct", cellAt page ((employeeRows.getD i ("", 0)).2 + 1) c) := by
      unfold extractRecord
      rw [getD_map_of_lt _ colmap j _ ("", 0) hj, hcol]
    rw [hrec, hq]
    simp [cellDiv100]
  · rw [hmtd]
    show (attachPeriod periodEnd
        (extractRecord page ((employeeRows.getD i ("", 0)).2 + 2) colmap)).getD
      j ("", Cell.blank) = _
    unfold attachPeriod
    rw [getD_append_of_lt _ _ j _ (by rw [hlen2]; exact hj)]
    unfold extractRecord
    rw [getD_map_of_lt _ colmap j _ ("", 0) hj]
    rw [hcol]
  · rw [hytd]
    show (attachPeriod periodEnd
        (extractRecord page ((employeeRows.getD i ("", 0)).2 + 3) colmap)).getD
      j ("", Cell.blank) = _
    unfold attachPeriod
    rw [getD_append_of_lt _ _ j _ (by rw [hlen3]; exact hj)]
    unfold extractRecord
    rw [getD_map_of_lt _ colmap j _ ("", 0) hj]
    rw [hcol]
  · rw [hweek]
    show (attachPeriod periodEnd
        (scaleActualPct
          (extractRecord page ((employeeRows.getD i ("", 0)).2 + 1) colmap))).getD
      j2 ("", Cell.blank) = _
    unfold attachPeriod
    rw [getD_append_of_lt _ _ j2 _ (by rw [hlenScale]; exact hj2)]
    unfold scaleActualPct
    rw [getD_map_of_lt _ _ j2 _ ("", Cell.blank) (by simpa [extractRecord] using hj2)]
    have hrec2 : (extractRecord page ((employeeRows.getD i ("", 0)).2 + 1) colmap).getD
        j2 ("", Cell.blank)
        = (col2, cellAt page ((employeeRows.getD i ("", 0)).2 + 1) c2) := by
      unfold extractRecord
      rw [getD_map_of_lt _ colmap j2 _ ("", 0) hj2, hcol2]
    rw [hrec2]
    simp [hne]

/-- A concrete page for the scaling witness: a header row and the three
data rows below the label row 0; column 0 is `actual_pct`, column 1 is
`direct`. -/
def c2page : Page :=
  [[Cell.str "hdr"], [Cell.num 50, Cell.num 8], [Cell.num 60, Cell.num 9],
   [Cell.num 70, Cell.num 10]]

/-- Concrete employee label index for the scaling witness. -/
def c2rows : List (String × Nat) := [("1001", 0)]

/-- Concrete column map for the scaling witness. -/
def c2colmap : List (String × Nat) := [("actual_pct", 0), ("direct", 1)]

/-- Witness for C2: the raw weekly cell 50 is persisted as 50 / 100, the
raw month-to-date and year-to-date cells stay 60 and 70, and the weekly
`direct` cell stays 8. -/
theorem weekly_actual_pct_scaled_witness :
    (0 < c2rows.length ∧ 0 < c2colmap.length ∧ 1 < c2colmap.length ∧
      c2colmap.getD 0 ("", 0) = ("actual_pct", 0) ∧
      cellAt c2page ((c2rows.getD 0 ("", 0)).2 + 1) 0 = Cell.num 50 ∧
      c2colmap.getD 1 ("", 0) = ("direct", 1) ∧ ("direct" : String) ≠ "actual_pct") ∧
    (((get_employee_data c2page "3/2/2025" c2rows c2colmap).1.getD 0 ("", [])).2).getD
        0 ("", Cell.blank) = ("actual_pct", Cell.num (50 / 100)) ∧
    (((get_employee_data c2page "3/2/2025" c2rows c2colmap).2.1.getD 0 ("", [])).2).getD
        0 ("", Cell.blank) =
      ("actual_pct", cellAt c2page ((c2rows.getD 0 ("", 0)).2 + 2) 0) ∧
    (((get_employee_data c2page "3/2/2025" c2rows c2colmap).2.2.getD 0 ("", [])).2).getD
        0 ("", Cell.blank) =
      ("actual_pct", cellAt c2page ((c2rows.getD 0 ("", 0)).2 + 3) 0) ∧
    (((get_employee_data c2page "3/2/2025" c2rows c2colmap).1.getD 0 ("", [])).2).getD
        1 ("", Cell.blank) =
      ("direct", cellAt c2page ((c2rows.getD 0 ("", 0)).2 + 1) 1) :=
  ⟨⟨by decide, by decide, by decide, by decide, by decide, by decide, by decide⟩,
   weekly_actual_pct_scaled c2page "3/2/2025" c2rows c2colmap 0 0 1 0 1 "direct" 50
     (by decide) (by decide) (by decide) (by decide) (by decide) (by decide)
     (by decide)⟩

/-- C3 (code bug): `get_firm_pay_period` returns None both on a page that
contains the "For the period" marker and on pages that do not, so the
caller cannot distinguish found from not-found. The inner loop does
compute the period text of the marker cell, but the function has no
return statement and the value is dropped, contradicting its docstring
("Returns: str: Period end date string."). -/
theorem firm_pay_period_not_distinguishable :
    get_firm_pay_period [[Cell.str "For the period 2/24/2025 - 3/2/2025"]] =
      some none ∧
    get_firm_pay_period [[Cell.str "no period marker in this row"]] = some none ∧
    get_firm_pay_period [] = some none ∧
    firmPeriodRowScan [Cell.str "For the period 2/24/2025 - 3/2/2025"] =
      some (some "3/2/2025") := by decide

/-- C5 (code bug): the header-based extractor `get_pay_period` does return
all text after the character following the first hyphen of the first
matching header (first match wins), but `get_firm_pay_period` — the other
period-extraction routine the claim covers — returns None on a page whose
cell carries the very same marker text, because its computed value is
never returned. -/
theorem period_extractor_divergence :
    get_pay_period ["Name", "For the period 2/17/2025 - 2/23/2025"] =
      some (some "2/23/2025") ∧
    get_pay_period
        ["For the period 1/1/2025 - 1/5/2025",
         "For the period 2/17/2025 - 2/23/2025"] = some (some "1/5/2025") ∧
    get_firm_pay_period [[Cell.str "For the period 2/17/2025 - 2/23/2025"]] =
      some none := by decide

/-- C4 counterexample: the section key the code builds starts two
characters after the colon and is NOT trimmed ("Fisheries " keeps its
trailing blank), and the employee key the code builds is the slice
[colon+2, colon+6), not the 4 characters immediately following the colon:
on a label without the separating blank the code yields "001 " where the
claim's reading yields "1001". -/
theorem label_key_parse_counterexample :
    get_sections [[Cell.str "Section: Fisheries "]] =
      some ([("Fisheries ", 0)], [("Fisheries ", "Fisheries ")]) ∧
    claimSectionKey "Section: Fisheries " = some "Fisheries" ∧
    ("Fisheries " : String) ≠ "Fisheries" ∧
    get_employees [[Cell.str "Employee Number:1001 Doe, Jane"]] =
      some ([("001 ", 0)], [("001 ", ⟨"oe, Jane", "oe", "Jane", "001 "⟩)]) ∧
    claimEmployeeKey "Employee Number:1001 Doe, Jane" = some "1001" ∧
    ("001 " : String) ≠ "1001" := by decide

/-- C4 (amended): for a label row matched by the locator, the employee key
is the 4-character slice starting two characters after the first colon
(skipping one separating character), the name field starts 7 characters
after the colon and is split on the single comma into last/first, each
stripped; the section key is the remainder starting two characters after
the first colon, with no trimming applied. -/
theorem label_key_parse_amended :
    (∀ (s : String) (colon : Nat) (lf : String × String),
        strHas s "Employee Number:" = true →
        charIdx s ':' = some colon →
        splitTwo (sliceFrom s (colon + 7)) = some lf →
        get_employees [[Cell.str s]] =
          some ([(sliceBetween s (colon + 2) (colon + 6), 0)],
            [(sliceBetween s (colon + 2) (colon + 6),
              ⟨pyStrip (sliceFrom s (colon + 7)), pyStrip lf.1, pyStrip lf.2,
                sliceBetween s (colon + 2) (colon + 6)⟩)])) ∧
    (∀ (s : String) (colon : Nat),
        strHas s "Section:" = true →
        charIdx s ':' = some colon →
        get_sections [[Cell.str s]] =
          some ([(sliceFrom s (colon + 2), 0)],
            [(sliceFrom s (colon + 2), sliceFrom s (colon + 2))])) := by
  constructor
  · intro s colon lf hmark hcolon hsplit
    have hrow : parseEmployeeRow [Cell.str s] =
        RowParse.found (sliceBetween s (colon + 2) (colon + 6))
          ⟨pyStrip (sliceFrom s (colon + 7)), pyStrip lf.1, pyStrip lf.2,
            sliceBetween s (colon + 2) (colon + 6)⟩ := by
      unfold parseEmployeeRow
      simp only [List.getD_cons_zero, hmark, if_true, hcolon, hsplit]
    unfold get_employees get_employees_aux
    rw [hrow]
    simp [get_employees_aux, dictInsert]
  · intro s colon hmark hcolon
    have hrow : parseSectionRow [Cell.str s] =
        RowParse.found (sliceFrom s (colon + 2)) (sliceFrom s (colon + 2)) := by
      unfold parseSectionRow
      simp only [List.getD_cons_zero, hmark, if_true, hcolon]
    unfold get_sections get_sections_aux
    rw [hrow]
    simp [get_sections_aux, dictInsert]

/-- Witness for the amended C4 at realistic labels. -/
theorem label_key_parse_amended_witness :
    (strHas "Employee Number: 1001 Doe, Jane" "Employee Number:" = true ∧
      charIdx "Employee Number: 1001 Doe, Jane" ':' = some 15 ∧
      splitTwo (sliceFrom "Employee Number: 1001 Doe, Jane" (15 + 7)) =
        some ("Doe", " Jane") ∧
      get_employees [[Cell.str "Employee Number: 1001 Doe, Jane"]] =
        some ([(sliceBetween "Employee Number: 1001 Doe, Jane" (15 + 2) (15 + 6), 0)],
          [(sliceBetween "Employee Number: 1001 Doe, Jane" (15 + 2) (15 + 6),
            ⟨pyStrip (sliceFrom "Employee Number: 1001 Doe, Jane" (15 + 7)),
              pyStrip "Doe", pyStrip " Jane",
              sliceBetween "Employee Number: 1001 Doe, Jane" (15 + 2) (15 + 6)⟩)])) ∧
    (strHas "Section: Mekong" "Section:" = true ∧
      charIdx "Section: Mekong" ':' = some 7 ∧
      get_sections [[Cell.str "Section: Mekong"]] =
        some ([(sliceFrom "Section: Mekong" (7 + 2), 0)],
          [(sliceFrom "Section: Mekong" (7 + 2), sliceFrom "Section: Mekong" (7 + 2))])) :=
  ⟨⟨by decide, by decide, by decide,
    label_key_parse_amended.1 "Employee Number: 1001 Doe, Jane" 15 ("Doe", " Jane")
      (by decide) (by decide) (by decide)⟩,
   ⟨by decide, by decide,
    label_key_parse_amended.2 "Section: Mekong" 7 (by decide) (by decide)⟩⟩

lemma countKey_nil (e p : String) : countKey [] e p = 0 := rfl

/-- C6: each of the nine period-table writes of `write_data` is an
unconditional append, so writing the same frames twice starting from an
empty store leaves two fact rows per (entity, period_ending) key that
occurs once per frame; with the spec-modelled duplicate-detection
hardening enabled, exactly one row per key remains. -/
theorem fact_append_duplication (ing : Ingest) (e p : String)
    (h : countKey ing.emp_week e p = 1 ∧ countKey ing.emp_mtd e p = 1 ∧
      countKey ing.emp_ytd e p = 1 ∧ countKey ing.sec_week e p = 1 ∧
      countKey ing.sec_mtd e p = 1 ∧ countKey ing.sec_ytd e p = 1 ∧
      countKey ing.firm_week e p = 1 ∧ countKey ing.firm_mtd e p = 1 ∧
      countKey ing.firm_ytd e p = 1) :
    (countKey (write_data (write_data emptyStore ing) ing).employee_week e p = 2 ∧
      countKey (write_data (write_data emptyStore ing) ing).employee_mtd e p = 2 ∧
      countKey (write_data (write_data emptyStore ing) ing).employee_ytd e p = 2 ∧
      countKey (write_data (write_data emptyStore ing) ing).section_week e p = 2 ∧
      countKey (write_data (write_data emptyStore ing) ing).section_mtd e p = 2 ∧
      countKey (write_data (write_data emptyStore ing) ing).section_ytd e p = 2 ∧
      countKey (write_data (write_data emptyStore ing) ing).firm_week e p = 2 ∧
      countKey (write_data (write_data emptyStore ing) ing).firm_mtd e p = 2 ∧
      countKey (write_data (write_data emptyStore ing) ing).firm_ytd e p = 2) ∧
    (countKey (write_data_guarded (write_data_guarded emptyStore ing) ing).employee_week e p = 1 ∧
      countKey (write_data_guarded (write_data_guarded emptyStore ing) ing).employee_mtd e p = 1 ∧
      countKey (write_data_guarded (write_data_guarded emptyStore ing) ing).employee_ytd e p = 1 ∧
      countKey (write_data_guarded (write_data_guarded emptyStore ing) ing).section_week e p = 1 ∧
      countKey (write_data_guarded (write_data_guarded emptyStore ing) ing).section_mtd e p = 1 ∧
      countKey (write_data_guarded (write_data_guarded emptyStore ing) ing).section_ytd e p = 1 ∧
      countKey (write_data_guarded (write_data_guarded emptyStore ing) ing).firm_week e p = 1 ∧
      countKey (write_data_guarded (write_data_guarded emptyStore ing) ing).firm_mtd e p = 1 ∧
      countKey (write_data_guarded (write_data_guarded emptyStore ing) ing).firm_ytd e p = 1) := by
  obtain ⟨h1, h2, h3, h4, h5, h6, h7, h8, h9⟩ := h
  constructor
  · refine ⟨?_, ?_, ?_, ?_, ?_, ?_, ?_, ?_, ?_⟩ <;>
      simp [write_data, emptyStore, countKey_append, countKey_nil, countKey_rename,
        h1, h2, h3, h4, h5, h6, h7, h8, h9]
  · refine ⟨?_, ?_, ?_, ?_, ?_, ?_, ?_, ?_, ?_⟩ <;>
      simp [write_data_guarded, emptyStore, appendGuarded_nil, appendGuarded_self,
        countKey_rename, h1, h2, h3, h4, h5, h6, h7, h8, h9]

/-- Witness for C6 at a concrete one-row-per-table ingestion run. -/
theorem fact_append_duplication_witness :
    (countKey c6ing.emp_week "1001" "3/2/2025" = 1 ∧
      countKey c6ing.emp_mtd "1001" "3/2/2025" = 1 ∧
      countKey c6ing.emp_ytd "1001" "3/2/2025" = 1 ∧
      countKey c6ing.sec_week "1001" "3/2/2025" = 1 ∧
      countKey c6ing.sec_mtd "1001" "3/2/2025" = 1 ∧
      countKey c6ing.sec_ytd "1001" "3/2/2025" = 1 ∧
      countKey c6ing.firm_week "1001" "3/2/2025" = 1 ∧
      countKey c6ing.firm_mtd "1001" "3/2/2025" = 1 ∧
      countKey c6ing.firm_ytd "1001" "3/2/2025" = 1) ∧
    ((countKey (write_data (write_data emptyStore c6ing) c6ing).employee_week "1001" "3/2/2025" = 2 ∧
      countKey (write_data (write_data emptyStore c6ing) c6ing).employee_mtd "1001" "3/2/2025" = 2 ∧
      countKey (write_data (write_data emptyStore c6ing) c6ing).employee_ytd "1001" "3/2/2025" = 2 ∧
      countKey (write_data (write_data emptyStore c6ing) c6ing).section_week "1001" "3/2/2025" = 2 ∧
      countKey (write_data (write_data emptyStore c6ing) c6ing).section_mtd "1001" "3/2/2025" = 2 ∧
      countKey (write_data (write_data emptyStore c6ing) c6ing).section_ytd "1001" "3/2/2025" = 2 ∧
      countKey (write_data (write_data emptyStore c6ing) c6ing).firm_week "1001" "3/2/2025" = 2 ∧
      countKey (write_data (write_data emptyStore c6ing) c6ing).firm_mtd "1001" "3/2/2025" = 2 ∧
      countKey (write_data (write_data emptyStore c6ing) c6ing).firm_ytd "1001" "3/2/2025" = 2) ∧
     (countKey (write_data_guarded (write_data_guarded emptyStore c6ing) c6ing).employee_week "1001" "3/2/2025" = 1 ∧
      countKey (write_data_guarded (write_data_guarded emptyStore c6ing) c6ing).employee_mtd "1001" "3/2/2025" = 1 ∧
      countKey (write_data_guarded (write_data_guarded emptyStore c6ing) c6ing).employee_ytd "1001" "3/2/2025" = 1 ∧
      countKey (write_data_guarded (write_data_guarded emptyStore c6ing) c6ing).section_week "1001" "3/2/2025" = 1 ∧
      countKey (write_data_guarded (write_data_guarded emptyStore c6ing) c6ing).section_mtd "1001" "3/2/2025" = 1 ∧
      countKey (write_data_guarded (write_data_guarded emptyStore c6ing) c6ing).section_ytd "1001" "3/2/2025" = 1 ∧
      countKey (write_data_guarded (write_data_guarded emptyStore c6ing) c6ing).firm_week "1001" "3/2/2025" = 1 ∧
      countKey (write_data_guarded (write_data_guarded emptyStore c6ing) c6ing).firm_mtd "1001" "3/2/2025" = 1 ∧
      countKey (write_data_guarded (write_data_guarded emptyStore c6ing) c6ing).firm_ytd "1001" "3/2/2025" = 1)) :=
  ⟨by decide, fact_append_duplication c6ing "1001" "3/2/2025" (by decide)⟩

/-- C7: the entity dimension upsert appends exactly the incoming employee
identifiers not yet persisted (a set difference, in incoming order), it
never updates or deletes an existing employee row (the old table is kept
unchanged as a prefix), and re-ingesting a file with the known employee
1001 (even renamed) plus the new employee 1002 adds exactly the 1002 row
and leaves 1001's row untouched. -/
theorem entity_upsert_set_difference (st : Store) (ing : Ingest) :
    (write_data st ing).employee.map Prod.fst =
      st.employee.map Prod.fst ++
        (ing.employee_df.map Prod.fst).filter
          (fun id => ! (st.employee.map Prod.fst).contains id) ∧
    (∀ pr : String × EmpMeta,
        pr ∈ (write_data st ing).employee ↔
          pr ∈ st.employee ∨
            (pr ∈ ing.employee_df ∧ pr.1 ∉ st.employee.map Prod.fst)) ∧
    (write_data st ing).employee.take st.employee.length = st.employee ∧
    (write_data c7st c7ing).employee = [("1001", c7metaA), ("1002", c7metaB)] := by
  have hemp : (write_data st ing).employee =
      st.employee ++ ing.employee_df.filter
        (fun r => ! (st.employee.map Prod.fst).contains r.1) := rfl
  refine ⟨?_, ?_, ?_, by decide⟩
  · rw [hemp, List.map_append,
      map_fst_filter_key (fun id => ! (st.employee.map Prod.fst).contains id)
        ing.employee_df]
  · intro pr
    rw [hemp]
    simp [List.mem_append, List.mem_filter]
  · rw [hemp, List.take_left]

/-- C8 (amended): the resolved column map has at most one entry per
canonical name, not one per non-null header cell: looking up a canonical
name (the vocabulary name for a known raw header, the slug otherwise)
yields the zero-based index of the LAST non-null cell resolving to it,
and the mapping's keys are duplicate-free. -/
theorem column_resolver_last_write (page : Page) (m : List (String × Nat))
    (key : String) :
    (get_columns page = some m →
      alookup m key = lastCanonIdx employeeVocab (page.getD 0 []) 0 key ∧
      (m.map Prod.fst).Nodup) ∧
    (get_firm_columns page = some m →
      alookup m key = lastCanonIdx firmVocab (page.getD 7 []) 0 key ∧
      (m.map Prod.fst).Nodup) := by
  constructor
  · intro h
    refine ⟨?_, resolveColumnsAux_keys_nodup _ _ _ _ _ h List.nodup_nil⟩
    rw [resolveColumnsAux_alookup employeeVocab (page.getD 0 []) 0 [] m h key]
    cases lastCanonIdx employeeVocab (page.getD 0 []) 0 key <;> rfl
  · intro h
    refine ⟨?_, resolveColumnsAux_keys_nodup _ _ _ _ _ h List.nodup_nil⟩
    rw [resolveColumnsAux_alookup firmVocab (page.getD 7 []) 0 [] m h key]
    cases lastCanonIdx firmVocab (page.getD 7 []) 0 key <;> rfl

/-- A header row with a repeated raw header: two non-null cells resolve to
the same canonical name `direct`. -/
def c8page : Page :=
  [[Cell.str "Direct", Cell.blank, Cell.str "Actual", Cell.str "Direct"]]

/-- Witness for the amended C8: the repeated header `Direct` gets one
entry whose index 3 is the last matching cell's position. -/
theorem column_resolver_last_write_witness :
    get_columns c8page = some [("direct", 3), ("actual_pct", 2)] ∧
    (alookup [("direct", 3), ("actual_pct", 2)] "direct" =
        lastCanonIdx employeeVocab (c8page.getD 0 []) 0 "direct" ∧
      ([("direct", 3), ("actual_pct", 2)].map
        (Prod.fst (α := String) (β := Nat))).Nodup) :=
  ⟨by decide,
   (column_resolver_last_write c8page [("direct", 3), ("actual_pct", 2)] "direct").1
     (by decide)⟩

/-- C9: when the same employee number occurs in more than one label row,
`get_employees` keeps only the last occurrence in row-scan order: the
label index maps the number to the last matching row index, the metadata
holds the components parsed there, and the result carries no duplicate
key. -/
theorem employee_last_occurrence (page : Page) (rows : List (String × Nat))
    (data : List (String × EmpMeta)) (key : String)
    (h : get_employees page = some (rows, data)) :
    alookup rows key = (lastEmployeeOcc page 0 key).map Prod.fst ∧
    alookup data key = (lastEmployeeOcc page 0 key).map Prod.snd ∧
    (rows.map Prod.fst).Nodup := by
  have hmain := get_employees_aux_alookup page 0 [] [] rows data h key
  refine ⟨?_, ?_, get_employees_aux_keys_nodup page 0 [] [] rows data h List.nodup_nil⟩
  · rw [hmain.1]
    cases lastEmployeeOcc page 0 key <;> rfl
  · rw [hmain.2]
    cases lastEmployeeOcc page 0 key <;> rfl

/-- A page in which employee number 1001 is labelled twice, with different
names. -/
def c9page : Page :=
  [[Cell.str "Employee Number: 1001 Doe, Jane"], [],
   [Cell.str "Employee Number: 1001 Smith, Jane"]]

/-- Witness for C9: only the second (row 2) occurrence of 1001 survives,
with its name components. -/
theorem employee_last_occurrence_witness :
    get_employees c9page =
      some ([("1001", 2)], [("1001", ⟨"Smith, Jane", "Smith", "Jane", "1001"⟩)]) ∧
    (alookup [("1001", 2)] "1001" = (lastEmployeeOcc c9page 0 "1001").map Prod.fst ∧
      alookup [("1001", ⟨"Smith, Jane", "Smith", "Jane", "1001"⟩)] "1001" =
        (lastEmployeeOcc c9page 0 "1001").map Prod.snd ∧
      ([("1001", 2)].map (Prod.fst (α := String) (β := Nat))).Nodup) :=
  ⟨by decide,
   employee_last_occurrence c9page [("1001", 2)]
     [("1001", ⟨"Smith, Jane", "Smith", "Jane", "1001"⟩)] "1001" (by decide)⟩

/-- C10: the column resolvers complete without error exactly when every
non-null cell of their header row is a string; a non-null numeric cell is
never in the vocabulary and reaches the slug fallback's string
operations, which fail. -/
theorem column_resolver_total_iff_strings (page : Page) :
    ((get_columns page).isSome = true ↔
      ∀ c ∈ page.getD 0 [], ∀ q : ℚ, c ≠ Cell.num q) ∧
    ((get_firm_columns page).isSome = true ↔
      ∀ c ∈ page.getD 7 [], ∀ q : ℚ, c ≠ Cell.num q) :=
  ⟨resolveColumnsAux_isSome employeeVocab (page.getD 0 []) 0 [],
   resolveColumnsAux_isSome firmVocab (page.getD 7 []) 0 []⟩

/-- C8 counterexample: a header row with two non-null cells that both read
`Direct` resolves to a single-entry mapping, so the mapping does not
contain one entry per non-null header cell. -/
theorem column_resolver_collision_counterexample :
    get_columns [[Cell.str "Direct", Cell.str "Direct"]] = some [("direct", 1)] ∧
    (([[Cell.str "Direct", Cell.str "Direct"]] : Page).getD 0 []).countP
      (fun c => c ≠ Cell.blank) = 2 := by decide
